import Mathlib

/-!
Verification of the StudioLink request/response broker core.

The development shallowly embeds the broker state and operations from
`src/state.rs`, the HTTP handlers from `src/server.rs`, the dispatcher from
`src/tools/mod.rs` and the error rendering from `src/error.rs` / `src/mcp.rs`.

Modelling conventions:
- Clocks are natural-number seconds.  `std::time::Instant` values are `Nat`
  instants; `Instant::elapsed().as_secs()` becomes truncated subtraction
  `now - t` (for elapsed time `e`, `as_secs e < 30` holds iff `e < 30s`, and
  `as_secs e > 60` holds iff `e ≥ 61s`, which truncated `Nat` seconds mirror
  exactly at whole-second granularity).  The wall clock (`SystemTime`) read at
  registration is sampled at the same `now`; it is only stored, never compared.
- `HashMap` becomes an association list with the iteration-order determinism
  the spec allows (`keys().next()` is the head of the list); `insert` replaces
  an existing key in place, otherwise appends.
- `Uuid::new_v4()` becomes a fresh-id supply: a counter in the state rendered
  to a string.
- An `mpsc` unbounded response channel becomes a sink with a `closed` flag
  (the receiver has been dropped); `send(..).is_ok()` is `!closed`, matching
  `UnboundedSender::send`, and `is_closed()` is `closed`.
- `await` points (the long-poll wait, the reply-channel wait) are split out of
  the handlers; what the environment does during the wait is an oracle
  argument, so each handler is a pure function per critical section.
- JSON payloads are opaque to the broker; they are modelled as an
  uninterpreted wrapper.
-/

namespace StudioLink

/-- Opaque JSON value (`serde_json::Value`); the broker never inspects it. -/
structure JsonValue where
  render : String
deriving DecidableEq

/-- `PluginRequest` from src/state.rs. -/
structure PluginRequest where
  id : String
  tool : String
  args : JsonValue
deriving DecidableEq

/-- `PluginResponse` from src/state.rs. -/
structure PluginResponse where
  id : String
  success : Bool
  result : JsonValue
  error : Option String
deriving DecidableEq

/-- `SessionRegistration` from src/state.rs (`place_id`, `game_id` are u64). -/
structure SessionRegistration where
  session_id : String
  place_id : Nat
  place_name : String
  game_id : Nat
deriving DecidableEq

/-- `SessionInfo` from src/state.rs. -/
structure SessionInfo where
  session_id : String
  place_id : Nat
  place_name : String
  game_id : Nat
  connected_at : Nat
deriving DecidableEq

/-- The sender half of an unbounded mpsc response channel: all the broker ever
observes of it is whether the receiver is still alive. -/
structure ResponseSink where
  closed : Bool
deriving DecidableEq

/-- `SessionState` from src/state.rs.  The watch channel pair
(`notify_tx`/`notify_rx`) is modelled by the current value of the watch
channel, `notify`. -/
structure SessionState where
  info : SessionInfo
  last_heartbeat : Nat
  request_queue : List PluginRequest
  notify : Bool
deriving DecidableEq

/-- `AppState` from src/state.rs, plus the fresh-uuid supply `uuidCounter`
standing in for `Uuid::new_v4()`. -/
structure AppState where
  sessions : List (String × SessionState)
  active_session : Option String
  response_channels : List (String × ResponseSink)
  globalNotify : Bool
  proxy_mode : Bool
  proxy_url : String
  uuidCounter : Nat
deriving DecidableEq

/-! ### Association-list operations standing in for `HashMap` -/

/-- `HashMap::get`. -/
def alGet {α : Type} (l : List (String × α)) (k : String) : Option α :=
  (l.find? (fun p => p.1 == k)).map Prod.snd

/-- `HashMap::insert`: replace in place when the key is present, else append. -/
def alInsert {α : Type} (l : List (String × α)) (k : String) (v : α) :
    List (String × α) :=
  if l.any (fun p => p.1 == k) then
    l.map (fun p => if p.1 == k then (k, v) else p)
  else l ++ [(k, v)]

/-- `HashMap::remove` (the removed value, when needed, is read via `alGet`). -/
def alRemove {α : Type} (l : List (String × α)) (k : String) :
    List (String × α) :=
  l.filter (fun p => p.1 != k)

/-- `HashMap::get_mut` followed by an update of the stored value. -/
def alModify {α : Type} (l : List (String × α)) (k : String) (f : α → α) :
    List (String × α) :=
  l.map (fun p => if p.1 == k then (p.1, f p.2) else p)

/-- The key list of an association map is duplicate-free (always true of a
`HashMap`; stated as an explicit hypothesis where a proof needs it). -/
def keysNodup {α : Type} (l : List (String × α)) : Prop :=
  (l.map Prod.fst).Nodup

/-! ### Broker operations (`impl AppState`, src/state.rs) -/

/-- Fresh request id drawn from the uuid supply (`Uuid::new_v4()`). -/
def genUuid (n : Nat) : String := toString n

/-- `AppState::unregister_session`: remove the session; if it was the active
one, reassign `active_session` to the first remaining key or clear it. -/
def unregister_session (st : AppState) (session_id : String) : AppState :=
  let sessions := alRemove st.sessions session_id
  let active :=
    if st.active_session = some session_id then
      (sessions.head?).map Prod.fst
    else st.active_session
  { st with sessions := sessions, active_session := active }

/-- `AppState::heartbeat`: refresh `last_heartbeat`; no-op if absent. -/
def heartbeat (st : AppState) (now : Nat) (session_id : String) : AppState :=
  { st with sessions :=
      alModify st.sessions session_id (fun s => { s with last_heartbeat := now }) }

/-- `AppState::is_session_connected`: present and heartbeat younger than 30s. -/
def is_session_connected (st : AppState) (now : Nat) (session_id : String) : Bool :=
  match alGet st.sessions session_id with
  | some s => decide (now - s.last_heartbeat < 30)
  | none => false

/-- `AppState::is_plugin_connected`: the active session is connected. -/
def is_plugin_connected (st : AppState) (now : Nat) : Bool :=
  match st.active_session with
  | some id => is_session_connected st now id
  | none => false

/-- `AppState::switch_session`. -/
def switch_session (st : AppState) (session_id : String) : Bool × AppState :=
  if (alGet st.sessions session_id).isSome then
    (true, { st with active_session := some session_id })
  else (false, st)

/-- `AppState::cleanup_expired`: drop response channels whose sinks are
closed, then unregister every session whose heartbeat age exceeds 60s. -/
def cleanup_expired (st : AppState) (now : Nat) : AppState :=
  let st1 := { st with
    response_channels := st.response_channels.filter (fun p => !p.2.closed) }
  let stale :=
    (st1.sessions.filter
      (fun p => decide (60 < now - p.2.last_heartbeat))).map Prod.fst
  stale.foldl unregister_session st1

/-- `AppState::register_session`: reap stale state, evict sessions sharing
`(place_id, place_name)` under a different id, insert the new session, and
auto-activate it when there is no connected active session.  Both clocks
(monotonic and wall) are sampled as `now`. -/
def register_session (st : AppState) (now : Nat) (reg : SessionRegistration) :
    AppState × String :=
  let st1 := cleanup_expired st now
  let duplicates :=
    (st1.sessions.filter (fun p =>
      p.1 != reg.session_id
        && p.2.info.place_id == reg.place_id
        && p.2.info.place_name == reg.place_name)).map Prod.fst
  let st2 := duplicates.foldl unregister_session st1
  let session : SessionState :=
    { info :=
        { session_id := reg.session_id
          place_id := reg.place_id
          place_name := reg.place_name
          game_id := reg.game_id
          connected_at := now }
      last_heartbeat := now
      request_queue := []
      notify := false }
  let st3 := { st2 with sessions := alInsert st2.sessions reg.session_id session }
  let st4 :=
    if st3.active_session.isNone || !(is_plugin_connected st3 now) then
      { st3 with active_session := some reg.session_id }
    else st3
  ({ st4 with globalNotify := true }, reg.session_id)

/-- `AppState::queue_request_to_session`: mint a fresh id, install a fresh
open sink in the correlation table, append the request to the session's
queue and raise its wake signal.  Returns the id (identifying the reply
channel the caller will await) and the updated state, or `none` when the
session is absent. -/
def queue_request_to_session (st : AppState) (session_id tool : String)
    (args : JsonValue) : Option (String × AppState) :=
  match alGet st.sessions session_id with
  | none => none
  | some _ =>
    let id := genUuid st.uuidCounter
    let request : PluginRequest := { id := id, tool := tool, args := args }
    let st1 := { st with
      response_channels := alInsert st.response_channels id { closed := false },
      uuidCounter := st.uuidCounter + 1 }
    let sessions2 := alModify st1.sessions session_id (fun s =>
      { s with request_queue := s.request_queue ++ [request], notify := true })
    let st2 := { st1 with sessions := sessions2 }
    some (id, st2)

/-- `AppState::queue_request`: queue on the active session. -/
def queue_request (st : AppState) (tool : String) (args : JsonValue) :
    Option (String × AppState) :=
  match st.active_session with
  | none => none
  | some session_id => queue_request_to_session st session_id tool args

/-- `AppState::get_pending_request_for_session`: pop the head of the
session's queue, if any. -/
def get_pending_request_for_session (st : AppState) (session_id : String) :
    Option PluginRequest × AppState :=
  match alGet st.sessions session_id with
  | none => (none, st)
  | some s =>
    match s.request_queue with
    | [] => (none, st)
    | r :: rest =>
      let sessions1 :=
        alModify st.sessions session_id (fun s => { s with request_queue := rest })
      (some r, { st with sessions := sessions1 })

/-- `AppState::deliver_response`: remove the correlation entry for
`response.id` and push the response into its sink; the result is
`send(..).is_ok()` when an entry was found, `false` (after a warning)
otherwise. -/
def deliver_response (st : AppState) (response : PluginResponse) :
    Bool × AppState :=
  match alGet st.response_channels response.id with
  | some sink =>
    (!sink.closed,
     { st with response_channels := alRemove st.response_channels response.id })
  | none => (false, st)

/-! ### HTTP handlers (src/server.rs)

Each handler holds the broker lock only on straight-line sections; an `await`
(the 30s long-poll wait, the 60s reply wait) splits a handler into the
section before the wait and the section after it.  The state seen after the
wait is a fresh argument, since other handlers may have run in between, and
the outcome of the wait itself is an oracle argument. -/

/-- Result of the first locked section of `handle_poll_request`. -/
inductive PollStep1 where
  | badRequest
  | ok200 (r : PluginRequest)
  | pending
deriving DecidableEq

/-- Final reply of the long-poll wait section of `handle_poll_request`. -/
inductive PollReply where
  | ok200 (r : PluginRequest)
  | noContent
deriving DecidableEq

/-- `handle_poll_request`, first locked section: 400 on a missing
`session_id`; otherwise refresh the heartbeat and try to pop immediately. -/
def handle_poll_begin (st : AppState) (now : Nat) (sessionId : Option String) :
    PollStep1 × AppState :=
  match sessionId with
  | none => (.badRequest, st)
  | some sid =>
    let st1 := heartbeat st now sid
    match get_pending_request_for_session st1 sid with
    | (some r, st2) => (.ok200 r, st2)
    | (none, st2) => (.pending, st2)

/-- `handle_poll_request`, second locked section: clone the session's watch
receiver; `false` means the session is unknown and the handler replies 404. -/
def handle_poll_lookup_notify (st : AppState) (sid : String) : Bool :=
  (alGet st.sessions sid).isSome

/-- `handle_poll_request`, wait section: `wake n` tells whether the watch
channel changed within `n` seconds; the code waits 30.  On a wake, pop under
the lock from the then-current state `st`; otherwise (timeout, or a wake that
finds the queue empty) reply 204. -/
def handle_poll_await (st : AppState) (sid : String) (wake : Nat → Bool) :
    PollReply × AppState :=
  if wake 30 then
    match get_pending_request_for_session st sid with
    | (some r, st1) => (.ok200 r, st1)
    | (none, st1) => (.noContent, st1)
  else (.noContent, st)

/-- `handle_plugin_response`: 200 when `deliver_response` reports success,
404 otherwise. -/
def handle_plugin_response (st : AppState) (response : PluginResponse) :
    Nat × AppState :=
  match deliver_response st response with
  | (ok, st1) => (if ok then 200 else 404, st1)

/-- Result of the locked section of `handle_proxy_tool_call`. -/
inductive ProxyStep1 where
  | err503
  | enqueued (id : String)
deriving DecidableEq

/-- Final reply of `handle_proxy_tool_call` after the reply-channel wait. -/
inductive ProxyReply where
  | ok200 (r : PluginResponse)
  | err504
deriving DecidableEq

/-- `handle_proxy_tool_call`, locked section: 503 when no active session is
set or `queue_request` fails; otherwise the forwarded call is enqueued on the
active session under a freshly minted id (the id carried by the incoming
`PluginRequest` body is not reused). -/
def handle_proxy_tool_call_locked (st : AppState) (request : PluginRequest) :
    ProxyStep1 × AppState :=
  if st.active_session.isNone then (.err503, st)
  else
    match queue_request st request.tool request.args with
    | some (id, st1) => (.enqueued id, st1)
    | none => (.err503, st)

/-- `handle_proxy_tool_call`, wait section: `recv n` is what arrives on the
reply channel within `n` seconds (`none` covers both the timeout and a closed
channel); the code waits 60 and replies 504 when nothing arrives. -/
def handle_proxy_tool_call_await (recv : Nat → Option PluginResponse) :
    ProxyReply :=
  match recv 60 with
  | some r => .ok200 r
  | none => .err504

/-! ### Errors and the dispatcher (src/error.rs, src/tools/mod.rs, src/mcp.rs) -/

/-- `StudioLinkError` from src/error.rs (the IO payload kept as its string
rendering). -/
inductive StudioLinkError where
  | pluginNotConnected
  | requestTimeout (tool : String)
  | pluginError (msg : String)
  | invalidArguments (msg : String)
  | serverError (msg : String)
  | mcpError (msg : String)
  | serializationError (msg : String)
  | ioError (msg : String)
deriving DecidableEq

/-- The `Display` impl for `StudioLinkError`. -/
def StudioLinkError.display : StudioLinkError → String
  | .pluginNotConnected => "Studio plugin is not connected"
  | .requestTimeout id => "Request " ++ id ++ " timed out"
  | .pluginError msg => "Plugin error: " ++ msg
  | .invalidArguments msg => "Invalid arguments: " ++ msg
  | .serverError msg => "Server error: " ++ msg
  | .mcpError msg => "MCP error: " ++ msg
  | .serializationError msg => "Serialization error: " ++ msg
  | .ioError msg => "IO error: " ++ msg

/-- `err_text` from src/mcp.rs: how every tool handler renders an error for
the assistant. -/
def err_text (e : StudioLinkError) : String := "Error: " ++ e.display

/-- Result of the locked section of `send_to_plugin` (src/tools/mod.rs). -/
inductive SendStep1 where
  | proxyForward (url : String)
  | fail (e : StudioLinkError)
  | waiting (id : String)
deriving DecidableEq

/-- `send_to_plugin` up to its first `await`: dispatch to the proxy in proxy
mode; in direct mode fail fast with `PluginNotConnected` unless the active
session is connected, then enqueue on it, keeping the reply receiver
(identified by the fresh id).  The fallback `PluginError` branch covers
`queue_request` returning `None`. -/
def send_to_plugin_locked (st : AppState) (now : Nat) (tool : String)
    (args : JsonValue) : SendStep1 × AppState :=
  if st.proxy_mode then (.proxyForward st.proxy_url, st)
  else if !(is_plugin_connected st now) then (.fail .pluginNotConnected, st)
  else
    match queue_request st tool args with
    | some (id, st1) => (.waiting id, st1)
    | none =>
      (.fail (.pluginError
        "No active session. Use list_sessions and switch_session to connect."), st)

/-- One HTTP POST issued by `send_via_proxy`, with the client timeout it was
configured with (in seconds). -/
structure HttpPost where
  url : String
  timeoutSecs : Nat
  body : PluginRequest
deriving DecidableEq

/-- What the HTTP transport can hand back to `send_via_proxy`. -/
inductive ProxyHttpResult where
  | transportError (msg : String)
  | serviceUnavailable
  | gatewayTimeout
  | okJson (parsed : Except String PluginResponse)

/-- `send_via_proxy` (src/tools/mod.rs): build a request under a fresh id,
POST it once to `<proxy_url>/proxy/tool_call` with client timeout
`timeout + 5` seconds, and map the transport outcome to the error taxonomy.
The returned list is the trace of HTTP POSTs issued. -/
def send_via_proxy (uuidSeed : Nat) (proxy_url tool : String) (args : JsonValue)
    (timeout : Nat) (transport : HttpPost → ProxyHttpResult) :
    Except StudioLinkError JsonValue × List HttpPost :=
  let request : PluginRequest := { id := genUuid uuidSeed, tool := tool, args := args }
  let post : HttpPost :=
    { url := proxy_url ++ "/proxy/tool_call", timeoutSecs := timeout + 5
      body := request }
  let result : Except StudioLinkError JsonValue :=
    match transport post with
    | .transportError e => .error (.pluginError ("Proxy request failed: " ++ e))
    | .serviceUnavailable => .error .pluginNotConnected
    | .gatewayTimeout => .error (.requestTimeout tool)
    | .okJson (.error e) =>
      .error (.pluginError ("Proxy response parse error: " ++ e))
    | .okJson (.ok pr) =>
      if pr.success then .ok pr.result
      else .error (.pluginError (pr.error.getD "Unknown plugin error"))
  (result, [post])

/-! ### Association-list lemmas -/

theorem alGet_nil {α : Type} (k : String) : alGet ([] : List (String × α)) k = none := rfl

theorem alGet_cons {α : Type} (p : String × α) (t : List (String × α)) (k : String) :
    alGet (p :: t) k = if p.1 = k then some p.2 else alGet t k := by
  by_cases h : p.1 = k
  · simp [alGet, List.find?_cons_of_pos, h]
  · simp only [alGet, if_neg h]
    rw [List.find?_cons_of_neg]
    simpa using h

theorem alGet_eq_none_iff {α : Type} {l : List (String × α)} {k : String} :
    alGet l k = none ↔ ∀ p ∈ l, p.1 ≠ k := by
  induction l with
  | nil => simp [alGet_nil]
  | cons p t ih =>
    rw [alGet_cons]
    by_cases h : p.1 = k
    · simp [h]
    · simp [h, ih]

theorem alGet_mem {α : Type} {l : List (String × α)} {k : String} {v : α}
    (h : alGet l k = some v) : (k, v) ∈ l := by
  induction l with
  | nil => simp [alGet] at h
  | cons p t ih =>
    rw [alGet_cons] at h
    by_cases hk : p.1 = k
    · rw [if_pos hk] at h
      obtain ⟨a, b⟩ := p
      simp only at hk
      cases h
      subst hk
      exact List.mem_cons_self _ _
    · rw [if_neg hk] at h
      exact List.mem_cons_of_mem _ (ih h)

theorem alGet_of_mem_nodup {α : Type} {l : List (String × α)} {k : String} {v : α}
    (hnd : keysNodup l) (hmem : (k, v) ∈ l) : alGet l k = some v := by
  induction l with
  | nil => simp at hmem
  | cons p t ih =>
    rw [alGet_cons]
    rcases List.mem_cons.mp hmem with h | h
    · subst h
      simp
    · have hk : p.1 ≠ k := by
        intro hpk
        have : k ∈ t.map Prod.fst := List.mem_map.mpr ⟨(k, v), h, rfl⟩
        have := (List.nodup_cons.mp hnd).1
        rw [hpk] at this
        exact this ‹k ∈ t.map Prod.fst›
      rw [if_neg hk]
      exact ih (List.nodup_cons.mp hnd).2 h

theorem alGet_isSome_iff {α : Type} {l : List (String × α)} {k : String} :
    (alGet l k).isSome = true ↔ ∃ p ∈ l, p.1 = k := by
  induction l with
  | nil => simp [alGet]
  | cons p t ih =>
    rw [alGet_cons]
    by_cases h : p.1 = k
    · simp only [if_pos h, Option.isSome_some, true_iff]
      exact ⟨p, List.mem_cons_self _ _, h⟩
    · rw [if_neg h, ih]
      constructor
      · rintro ⟨q, hq, hqk⟩
        exact ⟨q, List.mem_cons_of_mem _ hq, hqk⟩
      · rintro ⟨q, hq, hqk⟩
        rcases List.mem_cons.mp hq with rfl | hq'
        · exact absurd hqk h
        · exact ⟨q, hq', hqk⟩

theorem alGet_append {α : Type} (l₁ l₂ : List (String × α)) (k : String) :
    alGet (l₁ ++ l₂) k
      = match alGet l₁ k with
        | some v => some v
        | none => alGet l₂ k := by
  induction l₁ with
  | nil => simp [alGet_nil]
  | cons p t ih =>
    rw [List.cons_append, alGet_cons, alGet_cons]
    by_cases h : p.1 = k
    · simp [h]
    · simp only [if_neg h]
      exact ih

theorem keys_alModify {α : Type} (l : List (String × α)) (k : String) (f : α → α) :
    (alModify l k f).map Prod.fst = l.map Prod.fst := by
  unfold alModify
  rw [List.map_map]
  refine List.map_congr_left ?_
  intro p _
  by_cases hpk : p.1 = k
  · simp [hpk]
  · simp [hpk]

theorem alGet_modify_self {α : Type} (l : List (String × α)) (k : String) (f : α → α) :
    alGet (alModify l k f) k = (alGet l k).map f := by
  induction l with
  | nil => rfl
  | cons p t ih =>
    unfold alModify
    rw [List.map_cons]
    by_cases hpk : p.1 = k
    · rw [if_pos (by simpa using hpk), alGet_cons, alGet_cons, if_pos hpk]
      simp [hpk]
    · rw [if_neg (by simpa using hpk), alGet_cons, alGet_cons, if_neg hpk, if_neg hpk]
      exact ih

theorem alGet_modify_ne {α : Type} (l : List (String × α)) (k k' : String)
    (f : α → α) (h : k' ≠ k) : alGet (alModify l k f) k' = alGet l k' := by
  induction l with
  | nil => rfl
  | cons p t ih =>
    obtain ⟨a, b⟩ := p
    unfold alModify
    rw [List.map_cons]
    by_cases hak : a = k
    · subst hak
      rw [if_pos (by simp), alGet_cons, alGet_cons]
      simp only
      rw [if_neg (fun hh => h hh.symm), if_neg (fun hh => h hh.symm)]
      exact ih
    · rw [if_neg (by simpa using hak), alGet_cons, alGet_cons]
      by_cases hak' : a = k'
      · simp only
        rw [if_pos hak', if_pos hak']
      · simp only
        rw [if_neg hak', if_neg hak']
        exact ih

theorem mem_alModify {α : Type} {l : List (String × α)} {k : String} {f : α → α}
    {p : String × α} (h : p ∈ alModify l k f) :
    (∃ v, (k, v) ∈ l ∧ p = (k, f v)) ∨ (p ∈ l ∧ p.1 ≠ k) := by
  unfold alModify at h
  obtain ⟨q, hq, hqe⟩ := List.mem_map.mp h
  by_cases hqk : q.1 = k
  · left
    refine ⟨q.2, ?_, ?_⟩
    · rw [← hqk]
      exact hq
    · rw [← hqe, if_pos (by simpa using hqk)]
      rw [hqk]
  · right
    rw [← hqe, if_neg (by simpa using hqk)]
    exact ⟨hq, hqk⟩

theorem alInsert_eq {α : Type} (l : List (String × α)) (k : String) (v : α) :
    alInsert l k v
      = if l.any (fun q => q.1 == k) then alModify l k (fun _ => v)
        else l ++ [(k, v)] := by
  unfold alInsert alModify
  by_cases hany : l.any (fun q => q.1 == k)
  · rw [if_pos hany, if_pos hany]
    refine List.map_congr_left ?_
    intro p _
    by_cases hpk : p.1 = k
    · simp [hpk]
    · simp [hpk]
  · rw [if_neg hany, if_neg hany]

theorem alGet_insert_self {α : Type} (l : List (String × α)) (k : String) (v : α) :
    alGet (alInsert l k v) k = some v := by
  rw [alInsert_eq]
  by_cases hany : l.any (fun q => q.1 == k)
  · rw [if_pos hany, alGet_modify_self]
    obtain ⟨p, hp, hpk⟩ := List.any_eq_true.mp hany
    have hs : (alGet l k).isSome = true :=
      alGet_isSome_iff.mpr ⟨p, hp, by simpa using hpk⟩
    obtain ⟨v', hv'⟩ := Option.isSome_iff_exists.mp hs
    rw [hv']
    rfl
  · rw [if_neg hany, alGet_append]
    have hnone : alGet l k = none := by
      rw [alGet_eq_none_iff]
      intro p hp hpk
      exact hany (List.any_eq_true.mpr ⟨p, hp, by simpa using hpk⟩)
    rw [hnone, alGet_cons]
    simp

theorem alGet_insert_ne {α : Type} (l : List (String × α)) (k k' : String) (v : α)
    (h : k' ≠ k) : alGet (alInsert l k v) k' = alGet l k' := by
  rw [alInsert_eq]
  by_cases hany : l.any (fun q => q.1 == k)
  · rw [if_pos hany]
    exact alGet_modify_ne l k k' _ h
  · rw [if_neg hany, alGet_append]
    have hone : alGet [(k, v)] k' = none := by
      rw [alGet_cons]
      simp only
      rw [if_neg (fun hh => h hh.symm)]
      rfl
    cases hl : alGet l k'
    · simp only [hone]
    · rfl

theorem mem_alInsert {α : Type} {l : List (String × α)} {k : String} {v : α}
    {p : String × α} (h : p ∈ alInsert l k v) : p = (k, v) ∨ (p ∈ l ∧ p.1 ≠ k) := by
  rw [alInsert_eq] at h
  by_cases hany : l.any (fun q => q.1 == k)
  · rw [if_pos hany] at h
    rcases mem_alModify h with ⟨w, _, hpe⟩ | hmem
    · left
      exact hpe
    · right
      exact hmem
  · rw [if_neg hany] at h
    rcases List.mem_append.mp h with h | h
    · right
      refine ⟨h, ?_⟩
      intro hpk
      exact hany (List.any_eq_true.mpr ⟨p, h, by simpa using hpk⟩)
    · left
      simpa using h

theorem alModify_of_none {α : Type} {l : List (String × α)} {k : String}
    (f : α → α) (h : alGet l k = none) : alModify l k f = l := by
  induction l with
  | nil => rfl
  | cons p t ih =>
    rw [alGet_cons] at h
    by_cases hpk : p.1 = k
    · rw [if_pos hpk] at h
      cases h
    · rw [if_neg hpk] at h
      unfold alModify
      rw [List.map_cons, if_neg (by simpa using hpk)]
      rw [show List.map (fun p => if p.1 == k then (p.1, f p.2) else p) t = alModify t k f from rfl]
      rw [ih h]

theorem alGet_remove_self {α : Type} (l : List (String × α)) (k : String) :
    alGet (alRemove l k) k = none := by
  rw [alGet_eq_none_iff]
  intro p hp
  have := List.of_mem_filter hp
  simpa using this

theorem alGet_remove_ne {α : Type} (l : List (String × α)) (k k' : String)
    (h : k' ≠ k) : alGet (alRemove l k) k' = alGet l k' := by
  induction l with
  | nil => rfl
  | cons p t ih =>
    unfold alRemove
    rw [List.filter_cons]
    by_cases hpk : p.1 = k
    · rw [if_neg (by simp [hpk])]
      rw [alGet_cons, if_neg (by rw [hpk]; exact fun hh => h hh.symm)]
      exact ih
    · rw [if_pos (by simpa using hpk)]
      rw [alGet_cons, alGet_cons]
      by_cases hpk' : p.1 = k'
      · rw [if_pos hpk', if_pos hpk']
      · rw [if_neg hpk', if_neg hpk']
        exact ih

theorem keysNodup_filter {α : Type} {l : List (String × α)} (q : String × α → Bool)
    (h : keysNodup l) : keysNodup (l.filter q) := by
  unfold keysNodup at h ⊢
  exact List.Nodup.sublist (List.Sublist.map Prod.fst (List.filter_sublist l)) h

theorem keysNodup_alRemove {α : Type} {l : List (String × α)} (k : String)
    (h : keysNodup l) : keysNodup (alRemove l k) :=
  keysNodup_filter _ h

theorem alGet_foldl_alRemove {α : Type} (ids : List String)
    (l : List (String × α)) (k : String) :
    alGet (ids.foldl alRemove l) k = if k ∈ ids then none else alGet l k := by
  induction ids generalizing l with
  | nil => simp
  | cons i rest ih =>
    rw [List.foldl_cons, ih]
    by_cases hk : k ∈ rest
    · simp [hk]
    · rw [if_neg hk]
      by_cases hki : k = i
      · subst hki
        simp [alGet_remove_self]
      · rw [alGet_remove_ne _ _ _ hki]
        simp [hki, hk]

theorem mem_foldl_alRemove {α : Type} (ids : List String)
    (l : List (String × α)) (p : String × α) :
    p ∈ ids.foldl alRemove l ↔ p ∈ l ∧ p.1 ∉ ids := by
  induction ids generalizing l with
  | nil => simp
  | cons i rest ih =>
    rw [List.foldl_cons, ih]
    unfold alRemove
    constructor
    · rintro ⟨hmem, hrest⟩
      have h1 := List.of_mem_filter hmem
      have h2 := List.mem_of_mem_filter hmem
      refine ⟨h2, ?_⟩
      simp only [List.mem_cons]
      rintro (h | h)
      · simp [h] at h1
      · exact hrest h
    · rintro ⟨hmem, hni⟩
      simp only [List.mem_cons] at hni
      push_neg at hni
      refine ⟨List.mem_filter.mpr ⟨hmem, ?_⟩, hni.2⟩
      simpa using hni.1

theorem keysNodup_foldl_alRemove {α : Type} (ids : List String)
    {l : List (String × α)} (h : keysNodup l) :
    keysNodup (ids.foldl alRemove l) := by
  induction ids generalizing l with
  | nil => exact h
  | cons i rest ih => exact ih (keysNodup_alRemove i h)

theorem alGet_filter {α : Type} {l : List (String × α)} (q : String × α → Bool)
    (hnd : keysNodup l) (k : String) :
    alGet (l.filter q) k
      = (alGet l k).bind (fun v => if q (k, v) then some v else none) := by
  induction l with
  | nil => rfl
  | cons p t ih =>
    have hnd' := (List.nodup_cons.mp hnd).2
    rw [List.filter_cons, alGet_cons]
    by_cases hpk : p.1 = k
    · rw [if_pos hpk]
      have hkt : alGet t k = none := by
        rw [alGet_eq_none_iff]
        intro r hr hrk
        have := (List.nodup_cons.mp hnd).1
        rw [hpk] at this
        exact this (List.mem_map.mpr ⟨r, hr, hrk⟩)
      by_cases hq : q p
      · rw [if_pos hq, alGet_cons, if_pos hpk]
        obtain ⟨a, b⟩ := p
        simp only at hpk
        subst hpk
        simp [hq]
      · rw [if_neg hq, ih hnd']
        rw [hkt]
        obtain ⟨a, b⟩ := p
        simp only at hpk
        subst hpk
        simp [hq]
    · rw [if_neg hpk]
      by_cases hq : q p
      · rw [if_pos hq, alGet_cons, if_neg hpk]
        exact ih hnd'
      · rw [if_neg hq]
        exact ih hnd'

theorem keysNodup_alInsert {α : Type} {l : List (String × α)} (k : String) (v : α)
    (h : keysNodup l) : keysNodup (alInsert l k v) := by
  rw [alInsert_eq]
  by_cases hany : l.any (fun q => q.1 == k)
  · rw [if_pos hany]
    unfold keysNodup at h ⊢
    rw [keys_alModify]
    exact h
  · rw [if_neg hany]
    unfold keysNodup at h ⊢
    rw [List.map_append, List.nodup_append]
    refine ⟨h, List.nodup_singleton _, ?_⟩
    intro a ha hb
    simp only [List.map_cons, List.map_nil, List.mem_singleton] at hb
    subst hb
    obtain ⟨p, hp, hpk⟩ := List.mem_map.mp ha
    exact hany (List.any_eq_true.mpr ⟨p, hp, by simpa using hpk⟩)

theorem nodup_all_eq_singleton {α : Type} {l : List α} {x : α}
    (hnd : l.Nodup) (hall : ∀ a ∈ l, a = x) (hmem : x ∈ l) : l = [x] := by
  cases l with
  | nil => simp at hmem
  | cons a t =>
    have hax : a = x := hall a (List.mem_cons_self _ _)
    subst hax
    have : t = [] := by
      cases t with
      | nil => rfl
      | cons b u =>
        have hbx : b = a := hall b (by simp)
        have := (List.nodup_cons.mp hnd).1
        rw [hbx] at this
        simp at this
    rw [this]

theorem alGet_isSome_modify {α : Type} (l : List (String × α)) (k : String)
    (f : α → α) (k' : String) :
    (alGet (alModify l k f) k').isSome = (alGet l k').isSome := by
  by_cases h : k' = k
  · subst h
    rw [alGet_modify_self]
    cases alGet l k' <;> rfl
  · rw [alGet_modify_ne l k k' f h]

/-! ### Facts about the broker operations -/

theorem sessions_foldl_unregister (ids : List String) (st : AppState) :
    (ids.foldl unregister_session st).sessions = ids.foldl alRemove st.sessions := by
  induction ids generalizing st with
  | nil => rfl
  | cons i rest ih =>
    rw [List.foldl_cons, List.foldl_cons, ih]
    rfl

theorem channels_foldl_unregister (ids : List String) (st : AppState) :
    (ids.foldl unregister_session st).response_channels = st.response_channels := by
  induction ids generalizing st with
  | nil => rfl
  | cons i rest ih =>
    rw [List.foldl_cons, ih]
    rfl

/-- The spec's BrokerState invariant: `active_session`, when set, refers to a
session present in the registry. -/
def ActiveOk (st : AppState) : Prop :=
  ∀ id, st.active_session = some id → (alGet st.sessions id).isSome = true

theorem activeOk_unregister {st : AppState} (h : ActiveOk st) (sid : String) :
    ActiveOk (unregister_session st sid) := by
  intro id hid
  unfold unregister_session at hid ⊢
  simp only at hid ⊢
  by_cases hact : st.active_session = some sid
  · rw [if_pos hact] at hid
    cases hL : alRemove st.sessions sid with
    | nil =>
      rw [hL] at hid
      simp at hid
    | cons p t =>
      rw [hL] at hid
      simp only [List.head?_cons, Option.map_some'] at hid
      cases hid
      rw [alGet_cons, if_pos rfl]
      rfl
  · rw [if_neg hact] at hid
    have hne : id ≠ sid := by
      intro hh
      rw [hh] at hid
      exact hact hid
    rw [alGet_remove_ne st.sessions sid id hne]
    exact h id hid

theorem activeOk_foldl_unregister {st : AppState} (h : ActiveOk st)
    (ids : List String) : ActiveOk (ids.foldl unregister_session st) := by
  induction ids generalizing st with
  | nil => exact h
  | cons i rest ih => exact ih (activeOk_unregister h i)

theorem activeOk_cleanup {st : AppState} (h : ActiveOk st) (now : Nat) :
    ActiveOk (cleanup_expired st now) := by
  dsimp only [cleanup_expired]
  have h1 : ActiveOk { st with
      response_channels := st.response_channels.filter (fun p => !p.2.closed) } :=
    fun id hid => h id hid
  exact activeOk_foldl_unregister h1 _

/-- Shape of a successful `queue_request_to_session`. -/
theorem queue_request_to_session_some {st : AppState} {sid : String} {s : SessionState}
    (tool : String) (args : JsonValue) (h : alGet st.sessions sid = some s) :
    ∃ st', queue_request_to_session st sid tool args = some (genUuid st.uuidCounter, st')
      ∧ st'.active_session = st.active_session
      ∧ st'.sessions = alModify st.sessions sid (fun s =>
          { s with
            request_queue :=
              s.request_queue ++ [{ id := genUuid st.uuidCounter, tool := tool, args := args }],
            notify := true })
      ∧ st'.response_channels
          = alInsert st.response_channels (genUuid st.uuidCounter) { closed := false }
      ∧ st'.uuidCounter = st.uuidCounter + 1
      ∧ st'.proxy_mode = st.proxy_mode
      ∧ st'.globalNotify = st.globalNotify := by
  unfold queue_request_to_session
  rw [h]
  exact ⟨_, rfl, rfl, rfl, rfl, rfl, rfl, rfl⟩

theorem queue_request_to_session_none {st : AppState} {sid : String}
    (tool : String) (args : JsonValue) (h : alGet st.sessions sid = none) :
    queue_request_to_session st sid tool args = none := by
  unfold queue_request_to_session
  rw [h]

/-! ### Concrete states used in scenarios -/

/-- The initial broker state of `AppState::new` (uuid supply seeded at 0). -/
def emptyState : AppState :=
  { sessions := []
    active_session := none
    response_channels := []
    globalNotify := false
    proxy_mode := false
    proxy_url := ""
    uuidCounter := 0 }

/-- A session for place `(1, "P")` with the given heartbeat instant. -/
def sessionA (hb : Nat) : SessionState :=
  { info :=
      { session_id := "A", place_id := 1, place_name := "P", game_id := 1
        connected_at := 0 }
    last_heartbeat := hb
    request_queue := []
    notify := false }

/-- A broker with one registered session `"A"` (heartbeat at instant 0),
which is the active session. -/
def stOneSession : AppState :=
  { emptyState with sessions := [("A", sessionA 0)], active_session := some "A" }

def regA : SessionRegistration :=
  { session_id := "A", place_id := 1, place_name := "P", game_id := 1 }

def regB : SessionRegistration :=
  { session_id := "B", place_id := 1, place_name := "P", game_id := 1 }

/-- A broker whose correlation table holds one entry `"X"` whose sink has
been abandoned (the waiting caller timed out and dropped the receiver). -/
def stClosedSink : AppState :=
  { emptyState with response_channels := [("X", { closed := true })] }

/-- A plugin response correlated to `"X"`. -/
def respX : PluginResponse :=
  { id := "X", success := true, result := { render := "r" }, error := none }

/-! ### Claims -/

/-- C1, counterexample: with a correlation entry present for `response.id`
but its sink already abandoned by a timed-out caller, `deliver_response`
returns `false` and the endpoint replies 404 — not `true`/200 as claimed
(the entry is found: `tx.send` fails on the closed channel and `is_ok()` is
false). -/
theorem deliver_closed_sink_counterexample :
    (alGet stClosedSink.response_channels "X").isSome = true
    ∧ (deliver_response stClosedSink respX).1 = false
    ∧ (handle_plugin_response stClosedSink respX).1 = 404 := by
  refine ⟨by decide, by decide, by decide⟩

/-- C1, amended: `deliver_response` removes `response.id` from the
correlation table; it returns true (HTTP 200) exactly when an entry was
found and its sink is still open; when the entry was found but the sink has
been abandoned it returns false (HTTP 404, the response dropped), and when
no entry exists it logs a warning and returns false (HTTP 404). -/
theorem deliver_response_spec (st : AppState) (response : PluginResponse) :
    ((deliver_response st response).1 = true
       ↔ ∃ sink, alGet st.response_channels response.id = some sink
           ∧ sink.closed = false)
    ∧ alGet (deliver_response st response).2.response_channels response.id = none
    ∧ ((handle_plugin_response st response).1 = 200
       ↔ (deliver_response st response).1 = true)
    ∧ ((handle_plugin_response st response).1 = 404
       ↔ (deliver_response st response).1 = false) := by
  unfold handle_plugin_response deliver_response
  cases hg : alGet st.response_channels response.id with
  | none =>
    refine ⟨?_, ?_, ?_, ?_⟩
    · simp [hg]
    · simpa using hg
    · simp
    · simp
  | some sink =>
    refine ⟨?_, ?_, ?_, ?_⟩
    · simp only
      constructor
      · intro hb
        exact ⟨sink, rfl, by simpa using hb⟩
      · rintro ⟨sink', hs', hc'⟩
        cases hs'
        simp [hc']
    · simpa using alGet_remove_self st.response_channels response.id
    · cases hc : sink.closed <;> simp [hc]
    · cases hc : sink.closed <;> simp [hc]

/-- C3: in direct mode, whenever `active_session` is unset, refers to an
absent session, or the active session's heartbeat is at least 30 seconds
old, `send_to_plugin` fails with `PluginNotConnected` inside its single
locked section, leaving the state — in particular every queue and the
correlation table — untouched; the assistant-facing rendering of that error
is exactly the text the spec promises. -/
theorem send_not_connected_fails_fast (st : AppState) (now : Nat) (tool : String)
    (args : JsonValue) (hdirect : st.proxy_mode = false)
    (h : st.active_session = none
      ∨ (∃ sid, st.active_session = some sid ∧ alGet st.sessions sid = none)
      ∨ (∃ sid s, st.active_session = some sid ∧ alGet st.sessions sid = some s
          ∧ 30 ≤ now - s.last_heartbeat)) :
    send_to_plugin_locked st now tool args
        = (.fail .pluginNotConnected, st)
    ∧ err_text .pluginNotConnected = "Error: Studio plugin is not connected" := by
  have hnc : is_plugin_connected st now = false := by
    rcases h with h0 | ⟨sid, ha, hg⟩ | ⟨sid, s, ha, hg, hs⟩
    · unfold is_plugin_connected
      rw [h0]
    · unfold is_plugin_connected
      rw [ha]
      show is_session_connected st now sid = false
      unfold is_session_connected
      rw [hg]
    · unfold is_plugin_connected
      rw [ha]
      show is_session_connected st now sid = false
      unfold is_session_connected
      rw [hg]
      show decide (now - s.last_heartbeat < 30) = false
      exact decide_eq_false (by omega)
  refine ⟨?_, rfl⟩
  unfold send_to_plugin_locked
  simp [hdirect, hnc]

/-- C3 witness: with no plugin registered the dispatcher fails fast with
the promised error text. -/
theorem send_not_connected_fails_fast_witness :
    send_to_plugin_locked emptyState 0 "datastore_list" { render := "a" }
        = (.fail .pluginNotConnected, emptyState)
    ∧ err_text .pluginNotConnected = "Error: Studio plugin is not connected" :=
  send_not_connected_fails_fast emptyState 0 "datastore_list" { render := "a" }
    rfl (Or.inl rfl)

/-- C9: `send_via_proxy` issues exactly one HTTP POST, to
`<primary>/proxy/tool_call`, and its outer HTTP client timeout equals the
inner tool timeout plus exactly 5 seconds. -/
theorem send_via_proxy_single_post (uuidSeed : Nat) (proxy_url tool : String)
    (args : JsonValue) (timeout : Nat) (transport : HttpPost → ProxyHttpResult) :
    (send_via_proxy uuidSeed proxy_url tool args timeout transport).2
      = [{ url := proxy_url ++ "/proxy/tool_call", timeoutSecs := timeout + 5,
           body := { id := genUuid uuidSeed, tool := tool, args := args } }]
    ∧ (send_via_proxy uuidSeed proxy_url tool args timeout transport).2.length = 1
    ∧ ∀ p ∈ (send_via_proxy uuidSeed proxy_url tool args timeout transport).2,
        p.timeoutSecs = timeout + 5 ∧ p.url = proxy_url ++ "/proxy/tool_call" := by
  refine ⟨rfl, rfl, ?_⟩
  intro p hp
  simp only [send_via_proxy, List.mem_singleton] at hp
  subst hp
  exact ⟨rfl, rfl⟩

/-- C10: in direct mode, under the single lock acquisition of
`send_to_plugin`, `is_plugin_connected` returning true implies the active
session is present, so `queue_request` succeeds and the
`PluginError("No active session...")` branch is unreachable. -/
theorem send_connected_always_enqueues (st : AppState) (now : Nat) (tool : String)
    (args : JsonValue) (hdirect : st.proxy_mode = false)
    (hconn : is_plugin_connected st now = true) :
    ∃ id st', queue_request st tool args = some (id, st')
      ∧ send_to_plugin_locked st now tool args = (.waiting id, st') := by
  cases ha : st.active_session with
  | none =>
    unfold is_plugin_connected at hconn
    rw [ha] at hconn
    exact absurd hconn (by simp)
  | some sid =>
    have hs' : is_session_connected st now sid = true := by
      unfold is_plugin_connected at hconn
      rw [ha] at hconn
      exact hconn
    unfold is_session_connected at hs'
    cases hg : alGet st.sessions sid with
    | none =>
      rw [hg] at hs'
      exact absurd hs' (by simp)
    | some s =>
      rw [hg] at hs'
      have hlt : now - s.last_heartbeat < 30 := of_decide_eq_true hs'
      obtain ⟨st', hq, -, -, -, -, -, -⟩ := queue_request_to_session_some tool args hg
      have hqr : queue_request st tool args = some (genUuid st.uuidCounter, st') := by
        unfold queue_request
        rw [ha]
        exact hq
      refine ⟨genUuid st.uuidCounter, st', hqr, ?_⟩
      have hc : is_plugin_connected st now = true := by
        unfold is_plugin_connected
        rw [ha]
        show is_session_connected st now sid = true
        unfold is_session_connected
        rw [hg]
        exact decide_eq_true hlt
      unfold send_to_plugin_locked
      simp [hdirect, hc, hqr]

/-- Popping from an absent session is a no-op. -/
theorem get_pending_absent {st : AppState} {sid : String}
    (hg : alGet st.sessions sid = none) :
    get_pending_request_for_session st sid = (none, st) := by
  unfold get_pending_request_for_session
  rw [hg]

/-- Popping from a present session with an empty queue is a no-op. -/
theorem get_pending_empty {st : AppState} {sid : String} {s : SessionState}
    (hg : alGet st.sessions sid = some s) (hq : s.request_queue = []) :
    get_pending_request_for_session st sid = (none, st) := by
  unfold get_pending_request_for_session
  rw [hg]
  dsimp only
  rw [hq]

/-- Popping from a present session with a non-empty queue removes and
returns the head. -/
theorem get_pending_cons {st : AppState} {sid : String} {s : SessionState}
    {r : PluginRequest} {rest : List PluginRequest}
    (hg : alGet st.sessions sid = some s) (hq : s.request_queue = r :: rest) :
    get_pending_request_for_session st sid
      = (some r,
         { st with
           sessions :=
             alModify st.sessions sid (fun s => { s with request_queue := rest }) }) := by
  unfold get_pending_request_for_session
  rw [hg]
  dsimp only
  rw [hq]

/-- A heartbeat on an absent session leaves the state unchanged. -/
theorem heartbeat_absent {st : AppState} {sid : String} (now : Nat)
    (hg : alGet st.sessions sid = none) : heartbeat st now sid = st := by
  unfold heartbeat
  rw [alModify_of_none _ hg]

/-- A heartbeat on a present session refreshes only `last_heartbeat`. -/
theorem alGet_heartbeat_self {st : AppState} {sid : String} {s : SessionState}
    (now : Nat) (hg : alGet st.sessions sid = some s) :
    alGet (heartbeat st now sid).sessions sid
      = some { s with last_heartbeat := now } := by
  unfold heartbeat
  dsimp only
  rw [alGet_modify_self, hg]
  rfl

/-- The forwarded request body of the proxy scenario, carrying the
secondary's correlation id `"Y"`. -/
def reqY : PluginRequest := { id := "Y", tool := "t", args := { render := "a" } }

/-- C2, counterexample: at instant 30 the single session's heartbeat (taken
at instant 0) is stale, so direct-mode send fails with `PluginNotConnected`;
yet `handle_proxy_tool_call` does not reply 503 — it enqueues, and it does so
under the freshly minted id `"0"`, not the caller's id `"Y"`, so the
response returned over HTTP cannot carry the caller's id. -/
theorem proxy_tool_call_counterexample :
    (send_to_plugin_locked stOneSession 30 "t" { render := "a" }).1
        = .fail .pluginNotConnected
    ∧ (handle_proxy_tool_call_locked stOneSession reqY).1 ≠ .err503
    ∧ (handle_proxy_tool_call_locked stOneSession reqY).1 = .enqueued "0"
    ∧ "0" ≠ "Y" := by
  refine ⟨by decide, by decide, by decide, by decide⟩

/-- C2, amended: `handle_proxy_tool_call` replies 503 exactly when
`active_session` is unset or refers to an absent session — unlike direct-mode
send it performs no heartbeat-liveness check; otherwise it enqueues the
forwarded call on the active session under a freshly generated correlation id
(the caller's id is not reused), installs an open sink for that id, returns
the received PluginResponse with status 200, and replies 504 when nothing
arrives on the reply channel within 60 seconds. -/
theorem proxy_tool_call_spec (st : AppState) (request : PluginRequest)
    (recv : Nat → Option PluginResponse) :
    ((handle_proxy_tool_call_locked st request).1 = .err503
       ↔ (st.active_session = none
          ∨ ∃ sid, st.active_session = some sid ∧ alGet st.sessions sid = none))
    ∧ (∀ sid s, st.active_session = some sid → alGet st.sessions sid = some s →
        ∃ st', handle_proxy_tool_call_locked st request
            = (.enqueued (genUuid st.uuidCounter), st')
          ∧ alGet st'.sessions sid = some { s with
              request_queue := s.request_queue
                ++ [{ id := genUuid st.uuidCounter, tool := request.tool,
                      args := request.args }],
              notify := true }
          ∧ alGet st'.response_channels (genUuid st.uuidCounter)
              = some { closed := false })
    ∧ (recv 60 = none → handle_proxy_tool_call_await recv = .err504)
    ∧ (∀ r, recv 60 = some r → handle_proxy_tool_call_await recv = .ok200 r) := by
  refine ⟨?_, ?_, ?_, ?_⟩
  · unfold handle_proxy_tool_call_locked
    cases ha : st.active_session with
    | none => simp
    | some sid =>
      simp only [Option.isNone_some, Bool.false_eq_true, if_false]
      unfold queue_request
      rw [ha]
      dsimp only
      cases hg : alGet st.sessions sid with
      | none =>
        rw [queue_request_to_session_none _ _ hg]
        exact iff_of_true rfl (Or.inr ⟨sid, rfl, hg⟩)
      | some s =>
        obtain ⟨st', hq, -, -, -, -, -, -⟩ :=
          queue_request_to_session_some request.tool request.args hg
        rw [hq]
        apply iff_of_false
        · simp
        · rintro (h0 | ⟨sid', ha', hg'⟩)
          · cases h0
          · cases ha'
            rw [hg] at hg'
            cases hg'
  · intro sid s ha hg
    unfold handle_proxy_tool_call_locked
    rw [ha]
    simp only [Option.isNone_some, Bool.false_eq_true, if_false]
    unfold queue_request
    rw [ha]
    dsimp only
    obtain ⟨st', hq, -, hsess, hchan, -, -, -⟩ :=
      queue_request_to_session_some request.tool request.args hg
    rw [hq]
    refine ⟨st', rfl, ?_, ?_⟩
    · rw [hsess, alGet_modify_self, hg]
      rfl
    · rw [hchan, alGet_insert_self]
  · intro h0
    unfold handle_proxy_tool_call_await
    rw [h0]
  · intro r hr
    unfold handle_proxy_tool_call_await
    rw [hr]

/-- C2 witness: on a broker with one (possibly stale) session the forwarded
call is enqueued under the fresh id `"0"` with an open sink installed, and a
silent reply channel yields 504. -/
theorem proxy_tool_call_spec_witness :
    (∃ st', handle_proxy_tool_call_locked stOneSession reqY = (.enqueued "0", st')
      ∧ alGet st'.response_channels "0" = some { closed := false })
    ∧ handle_proxy_tool_call_await (fun _ => none) = .err504 := by
  have h := proxy_tool_call_spec stOneSession reqY (fun _ => none)
  obtain ⟨st', h1, -, h3⟩ := h.2.1 "A" (sessionA 0) rfl (by decide)
  exact ⟨⟨st', h1, h3⟩, h.2.2.1 rfl⟩

/-- C10 witness: with a fresh connected session the dispatcher enqueues. -/
theorem send_connected_always_enqueues_witness :
    ∃ id st', queue_request stOneSession "run_code" { render := "a" } = some (id, st')
      ∧ send_to_plugin_locked stOneSession 0 "run_code" { render := "a" }
          = (.waiting id, st') :=
  send_connected_always_enqueues stOneSession 0 "run_code" { render := "a" }
    rfl (by decide)

/-- C7: for GET /request — a missing `session_id` yields 400; an unknown
session yields 404 (and the state is untouched); a known session always has
its heartbeat refreshed, and the call yields 200 with the head request
(removed from the queue) when the queue is non-empty at poll time, or, when
the wait was entered, 200 with the head popped from the wake-time state if
the wake fired and found the queue non-empty, and 204 both when the wake
fired onto an empty queue and when the 30-second wait elapsed without a
wake. -/
theorem poll_request_spec (st st2 : AppState) (now : Nat) (sid : String)
    (wake : Nat → Bool) :
    handle_poll_begin st now none = (.badRequest, st)
    ∧ (alGet st.sessions sid = none →
        handle_poll_begin st now (some sid) = (.pending, st)
        ∧ handle_poll_lookup_notify st sid = false)
    ∧ (∀ s r rest, alGet st.sessions sid = some s → s.request_queue = r :: rest →
        ∃ st', handle_poll_begin st now (some sid) = (.ok200 r, st')
          ∧ alGet st'.sessions sid
              = some { s with last_heartbeat := now, request_queue := rest })
    ∧ (∀ s, alGet st.sessions sid = some s → s.request_queue = [] →
        handle_poll_begin st now (some sid) = (.pending, heartbeat st now sid)
        ∧ alGet (heartbeat st now sid).sessions sid
            = some { s with last_heartbeat := now }
        ∧ handle_poll_lookup_notify (heartbeat st now sid) sid = true)
    ∧ (wake 30 = true → ∀ s2 r rest, alGet st2.sessions sid = some s2 →
        s2.request_queue = r :: rest →
        (handle_poll_await st2 sid wake).1 = .ok200 r)
    ∧ (wake 30 = true → ∀ s2, alGet st2.sessions sid = some s2 →
        s2.request_queue = [] → handle_poll_await st2 sid wake = (.noContent, st2))
    ∧ (wake 30 = false → handle_poll_await st2 sid wake = (.noContent, st2)) := by
  refine ⟨rfl, ?_, ?_, ?_, ?_, ?_, ?_⟩
  · intro hg
    have hhb : heartbeat st now sid = st := heartbeat_absent now hg
    constructor
    · unfold handle_poll_begin
      dsimp only
      rw [hhb, get_pending_absent hg]
    · unfold handle_poll_lookup_notify
      rw [hg]
      rfl
  · intro s r rest hg hq
    have hhb := alGet_heartbeat_self now hg
    have hpop := get_pending_cons hhb (by rw [hq])
    refine ⟨{ heartbeat st now sid with
        sessions := alModify (heartbeat st now sid).sessions sid
          (fun s => { s with request_queue := rest }) }, ?_, ?_⟩
    · unfold handle_poll_begin
      dsimp only
      rw [hpop]
    · dsimp only
      rw [alGet_modify_self, hhb]
      rfl
  · intro s hg hq
    have hhb := alGet_heartbeat_self now hg
    refine ⟨?_, hhb, ?_⟩
    · unfold handle_poll_begin
      dsimp only
      rw [get_pending_empty hhb (by rw [hq])]
    · unfold handle_poll_lookup_notify
      rw [hhb]
      rfl
  · intro hw s2 r rest hg hq
    unfold handle_poll_await
    rw [hw, if_pos rfl, get_pending_cons hg hq]
  · intro hw s2 hg hq
    unfold handle_poll_await
    rw [hw, if_pos rfl, get_pending_empty hg hq]
  · intro hw
    unfold handle_poll_await
    rw [hw]
    simp

/-- Sessions after `cleanup_expired`: the stale keys are folded away. -/
theorem cleanup_expired_sessions (st : AppState) (now : Nat) :
    (cleanup_expired st now).sessions
      = ((st.sessions.filter
            (fun p => decide (60 < now - p.2.last_heartbeat))).map Prod.fst).foldl
          alRemove st.sessions := by
  unfold cleanup_expired
  dsimp only
  rw [sessions_foldl_unregister]

/-- Channels after `cleanup_expired`: closed sinks are swept, nothing else. -/
theorem cleanup_expired_channels (st : AppState) (now : Nat) :
    (cleanup_expired st now).response_channels
      = st.response_channels.filter (fun p => !p.2.closed) := by
  unfold cleanup_expired
  dsimp only
  rw [channels_foldl_unregister]

/-- C8: `is_session_connected` is true iff the session is present with
heartbeat age strictly under 30 seconds; `cleanup_expired` removes exactly
the sessions whose heartbeat age exceeds 60 seconds and drops exactly the
correlation entries whose sinks are closed; hence a session whose heartbeat
age lies between 30 and 60 seconds is not connected but is retained whole
(its queue included). -/
theorem connectivity_and_cleanup (st : AppState) (now : Nat) (sid cid : String)
    (hs : keysNodup st.sessions) (hc : keysNodup st.response_channels) :
    (is_session_connected st now sid = true
       ↔ ∃ s, alGet st.sessions sid = some s ∧ now - s.last_heartbeat < 30)
    ∧ (alGet (cleanup_expired st now).sessions sid
        = match alGet st.sessions sid with
          | some s => if 60 < now - s.last_heartbeat then none else some s
          | none => none)
    ∧ (alGet (cleanup_expired st now).response_channels cid
        = match alGet st.response_channels cid with
          | some sink => if sink.closed then none else some sink
          | none => none)
    ∧ (∀ s, alGet st.sessions sid = some s → 30 ≤ now - s.last_heartbeat →
        now - s.last_heartbeat ≤ 60 →
        is_session_connected st now sid = false
        ∧ alGet (cleanup_expired st now).sessions sid = some s) := by
  have hstale : ∀ s, alGet st.sessions sid = some s →
      (sid ∈ (st.sessions.filter
          (fun p => decide (60 < now - p.2.last_heartbeat))).map Prod.fst
        ↔ 60 < now - s.last_heartbeat) := by
    intro s hg
    constructor
    · intro hmem
      obtain ⟨p, hp, hpk⟩ := List.mem_map.mp hmem
      have hpred := List.of_mem_filter hp
      have hpl := List.mem_of_mem_filter hp
      have : alGet st.sessions sid = some p.2 := by
        have : (sid, p.2) ∈ st.sessions := by
          rw [← hpk]
          exact hpl
        exact alGet_of_mem_nodup hs this
      rw [hg] at this
      cases this
      exact of_decide_eq_true hpred
    · intro hlt
      have hmem := alGet_mem hg
      exact List.mem_map.mpr
        ⟨(sid, s), List.mem_filter.mpr ⟨hmem, decide_eq_true hlt⟩, rfl⟩
  have hchar : alGet (cleanup_expired st now).sessions sid
      = match alGet st.sessions sid with
        | some s => if 60 < now - s.last_heartbeat then none else some s
        | none => none := by
    rw [cleanup_expired_sessions, alGet_foldl_alRemove]
    cases hg : alGet st.sessions sid with
    | none =>
      have hnm : sid ∉ (st.sessions.filter
          (fun p => decide (60 < now - p.2.last_heartbeat))).map Prod.fst := by
        intro hmem
        obtain ⟨p, hp, hpk⟩ := List.mem_map.mp hmem
        have hpl := List.mem_of_mem_filter hp
        have hsome : alGet st.sessions sid = some p.2 :=
          alGet_of_mem_nodup hs (by rw [← hpk]; exact hpl)
        rw [hg] at hsome
        cases hsome
      rw [if_neg hnm]
    | some s =>
      dsimp only
      by_cases hlt : 60 < now - s.last_heartbeat
      · rw [if_pos ((hstale s hg).mpr hlt), if_pos hlt]
      · rw [if_neg (fun hmem => hlt ((hstale s hg).mp hmem)), if_neg hlt]
  refine ⟨?_, hchar, ?_, ?_⟩
  · unfold is_session_connected
    cases hg : alGet st.sessions sid with
    | none =>
      simp only [Bool.false_eq_true, false_iff]
      rintro ⟨s, hgs, -⟩
      cases hgs
    | some s =>
      simp only [decide_eq_true_eq]
      constructor
      · intro h
        exact ⟨s, rfl, h⟩
      · rintro ⟨s', hgs, hlt⟩
        cases hgs
        exact hlt
  · rw [cleanup_expired_channels, alGet_filter _ hc]
    cases hg : alGet st.response_channels cid with
    | none => rfl
    | some sink =>
      cases hcl : sink.closed
      · simp [hcl]
      · simp [hcl]
  · intro s hg h30 h60
    refine ⟨?_, ?_⟩
    · unfold is_session_connected
      rw [hg]
      exact decide_eq_false (by omega)
    · rw [hchar, hg]
      dsimp only
      rw [if_neg (by omega)]

/-- C8 witness: at instant 45 the session with heartbeat instant 0 has age
45 — not connected, yet `cleanup_expired` retains it with its queue — and a
closed correlation sink is swept. -/
theorem connectivity_and_cleanup_witness :
    is_session_connected stOneSession 45 "A" = false
    ∧ alGet (cleanup_expired stOneSession 45).sessions "A" = some (sessionA 0)
    ∧ alGet (cleanup_expired stClosedSink 45).response_channels "X" = none := by
  have h := connectivity_and_cleanup stOneSession 45 "A" "X"
    (by unfold keysNodup; decide) (by unfold keysNodup; decide)
  have h2 := connectivity_and_cleanup stClosedSink 45 "A" "X"
    (by unfold keysNodup; decide) (by unfold keysNodup; decide)
  obtain ⟨hnc, hkeep⟩ := h.2.2.2 (sessionA 0) (by decide) (by decide) (by decide)
  refine ⟨hnc, hkeep, ?_⟩
  rw [h2.2.2.1]
  decide

/-- The session record inserted by `register_session` for `reg` at `now`. -/
def freshSession (reg : SessionRegistration) (now : Nat) : SessionState :=
  { info :=
      { session_id := reg.session_id
        place_id := reg.place_id
        place_name := reg.place_name
        game_id := reg.game_id
        connected_at := now }
    last_heartbeat := now
    request_queue := []
    notify := false }

/-- The session registry after `register_session`: reap, evict same-place
duplicates, insert. -/
theorem register_session_sessions (st : AppState) (now : Nat)
    (reg : SessionRegistration) :
    (register_session st now reg).1.sessions
      = alInsert
          ((((cleanup_expired st now).sessions.filter (fun p =>
              p.1 != reg.session_id
                && p.2.info.place_id == reg.place_id
                && p.2.info.place_name == reg.place_name)).map Prod.fst).foldl
            alRemove (cleanup_expired st now).sessions)
          reg.session_id (freshSession reg now) := by
  unfold register_session freshSession
  dsimp only
  split
  · dsimp only
    rw [sessions_foldl_unregister]
  · dsimp only
    rw [sessions_foldl_unregister]

/-- C5: registration evicts every session sharing `(place_id, place_name)`
under a different id and inserts the new one, so afterwards exactly one
session matches that pair and it is keyed by `reg.session_id`; concretely,
registering A then B for the same place leaves exactly the entry `"B"`, and
`active_session = "B"`. -/
theorem register_unique_place (st : AppState) (now : Nat)
    (reg : SessionRegistration) (h : keysNodup st.sessions) :
    (((register_session st now reg).1.sessions.filter (fun p =>
        p.2.info.place_id == reg.place_id
          && p.2.info.place_name == reg.place_name)).map Prod.fst)
      = [reg.session_id]
    ∧ ((register_session (register_session emptyState 0 regA).1 1 regB).1.sessions.map
          Prod.fst = ["B"]
      ∧ (register_session (register_session emptyState 0 regA).1 1 regB).1.active_session
          = some "B") := by
  refine ⟨?_, by decide, by decide⟩
  have hnd1 : keysNodup (cleanup_expired st now).sessions := by
    rw [cleanup_expired_sessions]
    exact keysNodup_foldl_alRemove _ h
  have hnd2 : keysNodup
      ((((cleanup_expired st now).sessions.filter (fun p =>
          p.1 != reg.session_id
            && p.2.info.place_id == reg.place_id
            && p.2.info.place_name == reg.place_name)).map Prod.fst).foldl
        alRemove (cleanup_expired st now).sessions) :=
    keysNodup_foldl_alRemove _ hnd1
  have hnd3 := keysNodup_alInsert reg.session_id (freshSession reg now) hnd2
  rw [register_session_sessions]
  have hall : ∀ p ∈ alInsert
      ((((cleanup_expired st now).sessions.filter (fun p =>
          p.1 != reg.session_id
            && p.2.info.place_id == reg.place_id
            && p.2.info.place_name == reg.place_name)).map Prod.fst).foldl
        alRemove (cleanup_expired st now).sessions)
      reg.session_id (freshSession reg now),
      (p.2.info.place_id == reg.place_id
        && p.2.info.place_name == reg.place_name) = true →
      p = (reg.session_id, freshSession reg now) := by
    intro p hp hmatch
    rcases mem_alInsert hp with hpe | ⟨hpL2, hpne⟩
    · exact hpe
    · exfalso
      have hm := (mem_foldl_alRemove _ _ _).mp hpL2
      apply hm.2
      refine List.mem_map.mpr ⟨p, List.mem_filter.mpr ⟨hm.1, ?_⟩, rfl⟩
      simp only [Bool.and_eq_true, bne_iff_ne]
      simp only [Bool.and_eq_true] at hmatch
      exact ⟨⟨hpne, hmatch.1⟩, hmatch.2⟩
  apply nodup_all_eq_singleton
  · exact keysNodup_filter _ hnd3
  · intro a ha
    obtain ⟨p, hp, hpk⟩ := List.mem_map.mp ha
    have hmem' := List.mem_of_mem_filter hp
    have hmatch' := List.of_mem_filter hp
    have hpe := hall p hmem' hmatch'
    rw [hpe] at hpk
    exact hpk.symm
  · refine List.mem_map.mpr ⟨(reg.session_id, freshSession reg now),
      List.mem_filter.mpr ⟨alGet_mem (alGet_insert_self _ _ _), ?_⟩, rfl⟩
    simp [freshSession]

/-- C5 witness: re-registering the place of the live session under id `"B"`
leaves `"B"` as the unique session for that place. -/
theorem register_unique_place_witness :
    (((register_session stOneSession 5 regB).1.sessions.filter (fun p =>
        p.2.info.place_id == regB.place_id
          && p.2.info.place_name == regB.place_name)).map Prod.fst)
      = [regB.session_id]
    ∧ (register_session (register_session emptyState 0 regA).1 1 regB).1.sessions.map
        Prod.fst = ["B"] := by
  have h := register_unique_place stOneSession 5 regB (by unfold keysNodup; decide)
  exact ⟨h.1, h.2.1⟩

/-- The active pointer after `register_session`: either the fresh session was
auto-activated or the pointer of the evicted-and-reaped intermediate state is
kept. -/
theorem register_session_active (st : AppState) (now : Nat)
    (reg : SessionRegistration) :
    (register_session st now reg).1.active_session = some reg.session_id
    ∨ (register_session st now reg).1.active_session
        = ((((cleanup_expired st now).sessions.filter (fun p =>
            p.1 != reg.session_id
              && p.2.info.place_id == reg.place_id
              && p.2.info.place_name == reg.place_name)).map Prod.fst).foldl
          unregister_session (cleanup_expired st now)).active_session := by
  unfold register_session
  dsimp only
  split
  · left
    rfl
  · right
    rfl

theorem activeOk_register {st : AppState} (h : ActiveOk st) (now : Nat)
    (reg : SessionRegistration) : ActiveOk (register_session st now reg).1 := by
  have h2 : ActiveOk ((((cleanup_expired st now).sessions.filter (fun p =>
      p.1 != reg.session_id
        && p.2.info.place_id == reg.place_id
        && p.2.info.place_name == reg.place_name)).map Prod.fst).foldl
      unregister_session (cleanup_expired st now)) :=
    activeOk_foldl_unregister (activeOk_cleanup h now) _
  intro id hid
  rw [register_session_sessions]
  rcases register_session_active st now reg with ha | ha
  · rw [ha] at hid
    cases hid
    rw [alGet_insert_self]
    rfl
  · rw [ha] at hid
    have hpres := h2 id hid
    by_cases hik : id = reg.session_id
    · subst hik
      rw [alGet_insert_self]
      rfl
    · rw [alGet_insert_ne _ _ _ _ hik]
      rw [sessions_foldl_unregister] at hpres
      exact hpres

theorem activeOk_heartbeat {st : AppState} (h : ActiveOk st) (now : Nat)
    (sid : String) : ActiveOk (heartbeat st now sid) := by
  intro i hi
  unfold heartbeat at hi ⊢
  dsimp only at hi ⊢
  rw [alGet_isSome_modify]
  exact h i hi

theorem activeOk_switch {st : AppState} (h : ActiveOk st) (sid : String) :
    ActiveOk (switch_session st sid).2 := by
  unfold switch_session
  cases hb : (alGet st.sessions sid).isSome
  · simp only [hb, Bool.false_eq_true, if_false]
    exact h
  · simp only [hb, if_true]
    intro i hi
    dsimp only at hi
    cases hi
    exact hb

theorem activeOk_queue {st : AppState} (h : ActiveOk st) (tool : String)
    (args : JsonValue) :
    ∀ id st', queue_request st tool args = some (id, st') → ActiveOk st' := by
  intro id st' hq
  unfold queue_request at hq
  cases ha : st.active_session with
  | none =>
    rw [ha] at hq
    cases hq
  | some sid =>
    rw [ha] at hq
    dsimp only at hq
    cases hg : alGet st.sessions sid with
    | none =>
      rw [queue_request_to_session_none _ _ hg] at hq
      cases hq
    | some s =>
      obtain ⟨st'', hq2, hact, hsess, -, -, -⟩ :=
        queue_request_to_session_some tool args hg
      rw [hq2] at hq
      cases hq
      intro i hi
      rw [hact] at hi
      rw [hsess, alGet_isSome_modify]
      exact h i hi

theorem activeOk_get_pending {st : AppState} (h : ActiveOk st) (sid : String) :
    ActiveOk (get_pending_request_for_session st sid).2 := by
  cases hg : alGet st.sessions sid with
  | none =>
    rw [get_pending_absent hg]
    exact h
  | some s =>
    cases hq : s.request_queue with
    | nil =>
      rw [get_pending_empty hg hq]
      exact h
    | cons r rest =>
      rw [get_pending_cons hg hq]
      intro i hi
      dsimp only at hi ⊢
      rw [alGet_isSome_modify]
      exact h i hi

theorem activeOk_deliver {st : AppState} (h : ActiveOk st)
    (response : PluginResponse) : ActiveOk (deliver_response st response).2 := by
  unfold deliver_response
  cases hg : alGet st.response_channels response.id with
  | none => exact h
  | some sink =>
    intro i hi
    exact h i hi

/-- C4: every broker operation preserves the invariant that
`active_session`, when set, refers to a key present in the sessions map; in
particular unregistering the active session reassigns or clears the pointer,
and `is_plugin_connected` being true yields an active id present in the
registry. -/
theorem active_session_invariant (st : AppState) (now : Nat)
    (reg : SessionRegistration) (sid tool : String) (args : JsonValue)
    (response : PluginResponse) (h : ActiveOk st) :
    ActiveOk (register_session st now reg).1
    ∧ ActiveOk (unregister_session st sid)
    ∧ ActiveOk (switch_session st sid).2
    ∧ ActiveOk (heartbeat st now sid)
    ∧ (∀ id st', queue_request st tool args = some (id, st') → ActiveOk st')
    ∧ ActiveOk (get_pending_request_for_session st sid).2
    ∧ ActiveOk (deliver_response st response).2
    ∧ ActiveOk (cleanup_expired st now)
    ∧ (is_plugin_connected st now = true →
        ∃ id, st.active_session = some id
          ∧ (alGet st.sessions id).isSome = true) := by
  refine ⟨activeOk_register h now reg, activeOk_unregister h sid,
    activeOk_switch h sid, activeOk_heartbeat h now sid,
    activeOk_queue h tool args, activeOk_get_pending h sid,
    activeOk_deliver h response, activeOk_cleanup h now, ?_⟩
  intro hconn
  cases ha : st.active_session with
  | none =>
    unfold is_plugin_connected at hconn
    rw [ha] at hconn
    exact absurd hconn (by simp)
  | some sid' =>
    have hs' : is_session_connected st now sid' = true := by
      unfold is_plugin_connected at hconn
      rw [ha] at hconn
      exact hconn
    unfold is_session_connected at hs'
    cases hg : alGet st.sessions sid' with
    | none =>
      rw [hg] at hs'
      exact absurd hs' (by simp)
    | some s => exact ⟨sid', rfl, by rw [hg]; rfl⟩

/-- C4 witness: the invariant holds of the one-session broker and is kept by
a same-place registration; connectivity exhibits the present active id. -/
theorem active_session_invariant_witness :
    ActiveOk (register_session stOneSession 0 regB).1
    ∧ (∃ id, stOneSession.active_session = some id
        ∧ (alGet stOneSession.sessions id).isSome = true) := by
  have hOk : ActiveOk stOneSession := by
    intro i hi
    have h2 : some "A" = some i := hi
    cases h2
    decide
  have h := active_session_invariant stOneSession 0 regB "A" "t"
    { render := "a" } respX hOk
  exact ⟨h.1, h.2.2.2.2.2.2.2.2 (by decide)⟩

/-! ### FIFO trace model for a single session's queue -/

/-- One broker operation targeting a fixed session: an enqueue through
`queue_request_to_session` or a poll pop through
`get_pending_request_for_session`. -/
inductive QOp where
  | enq (tool : String) (args : JsonValue)
  | pop

/-- Run an interleaving of enqueues and pops against the session `sid`,
collecting (in order) the requests actually enqueued and the requests
returned by the pops. -/
def runQueueOps (sid : String) :
    AppState → List QOp → AppState × List PluginRequest × List PluginRequest
  | st, [] => (st, [], [])
  | st, (QOp.enq tool args) :: ops =>
    match queue_request_to_session st sid tool args with
    | some (id, st1) =>
      match runQueueOps sid st1 ops with
      | (st2, enqs, pops) => (st2, { id := id, tool := tool, args := args } :: enqs, pops)
    | none => runQueueOps sid st ops
  | st, QOp.pop :: ops =>
    match get_pending_request_for_session st sid with
    | (some r, st1) =>
      match runQueueOps sid st1 ops with
      | (st2, enqs, pops) => (st2, enqs, r :: pops)
    | (none, st1) => runQueueOps sid st1 ops

/-- The session after a successful pop: same record, tail queue. -/
theorem alGet_after_pop {st : AppState} {sid : String} {s : SessionState}
    {r : PluginRequest} {rest : List PluginRequest}
    (hg : alGet st.sessions sid = some s) (hq : s.request_queue = r :: rest) :
    alGet (get_pending_request_for_session st sid).2.sessions sid
      = some { s with request_queue := rest } := by
  rw [get_pending_cons hg hq]
  dsimp only
  rw [alGet_modify_self, hg]
  rfl

/-- Trace invariant: initial queue ++ enqueued = popped ++ final queue. -/
theorem runQueueOps_invariant (sid : String) (ops : List QOp) :
    ∀ st s, alGet st.sessions sid = some s →
      ∃ s', alGet (runQueueOps sid st ops).1.sessions sid = some s'
        ∧ s.request_queue ++ (runQueueOps sid st ops).2.1
            = (runQueueOps sid st ops).2.2 ++ s'.request_queue := by
  induction ops with
  | nil =>
    intro st s hg
    exact ⟨s, hg, by simp [runQueueOps]⟩
  | cons op ops ih =>
    intro st s hg
    cases op with
    | enq tool args =>
      obtain ⟨st1, hq, -, hsess, -, -, -⟩ := queue_request_to_session_some tool args hg
      have hg1 : alGet st1.sessions sid = some { s with
          request_queue := s.request_queue
            ++ [{ id := genUuid st.uuidCounter, tool := tool, args := args }],
          notify := true } := by
        rw [hsess, alGet_modify_self, hg]
        rfl
      obtain ⟨s', hgs', heq⟩ := ih st1 _ hg1
      rcases hrun : runQueueOps sid st1 ops with ⟨st2, E, P⟩
      rw [hrun] at hgs' heq
      dsimp only at hgs' heq
      have h0 : runQueueOps sid st (QOp.enq tool args :: ops)
          = match queue_request_to_session st sid tool args with
            | some (id, st1) =>
              match runQueueOps sid st1 ops with
              | (st2, enqs, pops) =>
                (st2, { id := id, tool := tool, args := args } :: enqs, pops)
            | none => runQueueOps sid st ops := rfl
      have hstep : runQueueOps sid st (QOp.enq tool args :: ops)
          = (st2, { id := genUuid st.uuidCounter, tool := tool, args := args } :: E, P) := by
        rw [h0, hq]
        dsimp only
        rw [hrun]
      refine ⟨s', ?_, ?_⟩
      · rw [hstep]
        exact hgs'
      · rw [hstep]
        dsimp only
        rw [List.append_cons]
        exact heq
    | pop =>
      have h0 : runQueueOps sid st (QOp.pop :: ops)
          = match get_pending_request_for_session st sid with
            | (some r, st1) =>
              match runQueueOps sid st1 ops with
              | (st2, enqs, pops) => (st2, enqs, r :: pops)
            | (none, st1) => runQueueOps sid st1 ops := rfl
      cases hqv : s.request_queue with
      | nil =>
        have hpop := get_pending_empty hg hqv
        have hstep : runQueueOps sid st (QOp.pop :: ops) = runQueueOps sid st ops := by
          rw [h0, hpop]
        obtain ⟨s', hgs', heq⟩ := ih st s hg
        rw [hqv] at heq
        refine ⟨s', ?_, ?_⟩
        · rw [hstep]
          exact hgs'
        · rw [hstep]
          exact heq
      | cons r rest =>
        have hpop := get_pending_cons hg hqv
        have hg1 := alGet_after_pop hg hqv
        obtain ⟨s', hgs', heq⟩ := ih _ _ hg1
        rcases hrun : runQueueOps sid (get_pending_request_for_session st sid).2 ops
          with ⟨st2, E, P⟩
        rw [hrun] at hgs' heq
        dsimp only at hgs' heq
        have hpop2 : (get_pending_request_for_session st sid)
            = (some r, (get_pending_request_for_session st sid).2) := by
          rw [hpop]
        have hstep : runQueueOps sid st (QOp.pop :: ops) = (st2, E, r :: P) := by
          rw [h0, hpop2]
          dsimp only
          rw [hrun]
        refine ⟨s', ?_, ?_⟩
        · rw [hstep]
          exact hgs'
        · rw [hstep]
          dsimp only
          simp only [List.cons_append]
          rw [heq]

/-- C6: starting from a session with an empty queue, for every interleaving
of enqueues and pops on that session the sequence of popped requests is a
prefix of the sequence of enqueued requests. -/
theorem fifo_order (st : AppState) (sid : String) (s : SessionState)
    (ops : List QOp) (hg : alGet st.sessions sid = some s)
    (hq : s.request_queue = []) :
    ∃ t, (runQueueOps sid st ops).2.2 ++ t = (runQueueOps sid st ops).2.1 := by
  obtain ⟨s', hgs', heq⟩ := runQueueOps_invariant sid ops st s hg
  rw [hq] at heq
  simp only [List.nil_append] at heq
  exact ⟨s'.request_queue, heq.symm⟩

/-- C6 witness: a concrete enqueue/pop interleaving on the one-session
broker. -/
theorem fifo_order_witness :
    ∃ t, (runQueueOps "A" stOneSession
          [QOp.enq "t" { render := "a" }, QOp.pop,
           QOp.enq "u" { render := "b" }]).2.2 ++ t
      = (runQueueOps "A" stOneSession
          [QOp.enq "t" { render := "a" }, QOp.pop,
           QOp.enq "u" { render := "b" }]).2.1 :=
  fifo_order stOneSession "A" (sessionA 0) _ (by decide) (by decide)

/-- C7 witness: concrete polls — missing id, unknown session, and an empty
30-second wait. -/
theorem poll_request_spec_witness :
    handle_poll_begin stOneSession 5 none = (.badRequest, stOneSession)
    ∧ (handle_poll_begin stOneSession 5 (some "Z") = (.pending, stOneSession)
        ∧ handle_poll_lookup_notify stOneSession "Z" = false)
    ∧ handle_poll_await stOneSession "A" (fun _ => false)
        = (.noContent, stOneSession) := by
  have h := poll_request_spec stOneSession stOneSession 5 "Z" (fun _ => false)
  have h2 := poll_request_spec stOneSession stOneSession 5 "A" (fun _ => false)
  exact ⟨h.1, h.2.1 (by decide), h2.2.2.2.2.2.2 rfl⟩

end StudioLink
